import Mathlib

/-!
Shallow embedding of the OpenSSL crypto backend of cryptsetup
(src/lib/crypto_backend/crypto_openssl.c).

The wrapper layer is translated function by function.  The external
OpenSSL primitives (EVP digests, HMAC, EVP block ciphers, PBKDF2,
argon2) are represented by a `Backend` structure of pure functions;
backend calls whose return value the C code tests are additionally
given a Bool outcome parameter, so every early-return error path of
the C code is present in the model.  Machine buffers are `List Nat`
(byte lists); C return codes are `Int` (0 on success, a negative
errno on failure), with the errno constants used by the file given
explicitly.
-/

/-- Errno constant EINVAL (the C code returns -EINVAL). -/
def EINVAL : Int := 22

/-- Errno constant ENOMEM (the C code returns -ENOMEM). -/
def ENOMEM : Int := 12

/-- Errno constant ENOTSUP (the C code returns -ENOTSUP). -/
def ENOTSUP : Int := 95

/-- The concrete EVP cipher constructions reachable from crypt_cipher_init:
EVP_aes_128_xts, EVP_aes_256_xts, EVP_aes_{128,192,256}_cbc,
EVP_aes_{128,192,256}_ecb. -/
inductive EVPCipherType
  | aes_128_xts
  | aes_256_xts
  | aes_128_cbc
  | aes_192_cbc
  | aes_256_cbc
  | aes_128_ecb
  | aes_192_ecb
  | aes_256_ecb
deriving DecidableEq

/-- EVP block size of each construction as OpenSSL reports it:
the xts modes are stream-like with block size 1, cbc and ecb have the
AES block size 16. -/
def evpBlockSize : EVPCipherType → Nat
  | .aes_128_xts => 1
  | .aes_256_xts => 1
  | _ => 16

/-- Record of the external OpenSSL primitives as used by the wrapper.
Digest identities (the EVP_MD pointers) are represented by their
resolved name strings.  `digest` is the full digest of a message,
`hmac` the full MAC of a message under a key, `encrypt`/`decrypt` the
block-cipher transforms of a whole (block-aligned) buffer under
(construction, key, iv).  `pkcs5Ok` is the success of
PKCS5_PBKDF2_HMAC and `argon2Ret` the return code of the argon2
delegate for given arguments. -/
structure Backend where
  getDigestByName : String → Option String
  mdSize : String → Nat
  digest : String → List Nat → List Nat
  hmac : String → List Nat → List Nat → List Nat
  encrypt : EVPCipherType → List Nat → List Nat → List Nat → List Nat
  decrypt : EVPCipherType → List Nat → List Nat → List Nat → List Nat
  pkcs5Ok : String → List Nat → List Nat → Nat → Nat → Bool
  argon2Ret : String → List Nat → List Nat → Nat → Nat → Nat → Nat → Int

/-- Size of the stack scratch buffer in crypt_hash_final and
crypt_hmac_final: unsigned char tmp[EVP_MAX_MD_SIZE]. -/
def EVP_MAX_MD_SIZE : Nat := 64

/-- Writing `w` into the front of a fixed buffer whose previous content
is `buf` (models the backend depositing bytes into the stack scratch). -/
def writeBuf (buf w : List Nat) : List Nat := w ++ buf.drop w.length

/-- Model of struct crypt_hash: the resolved digest id and cached size,
together with the running state of the owned EVP_MD_CTX, represented
by the bytes absorbed since the last EVP_DigestInit_ex. -/
structure crypt_hash where
  hash_id : String
  hash_len : Nat
  mdState : List Nat
deriving DecidableEq

/-- Model of struct crypt_hmac together with the state of its owned
HMAC_CTX: the resolved digest id and cached size, the key retained
inside the HMAC_CTX by HMAC_Init_ex, and the bytes absorbed since the
last (re)initialisation. -/
structure crypt_hmac where
  hash_id : String
  hash_len : Nat
  key : List Nat
  mdState : List Nat
deriving DecidableEq

/-- Model of an EVP_CIPHER_CTX: a fresh context from
EVP_CIPHER_CTX_new has no construction armed and default padding on;
EVP_EncryptInit_ex or EVP_DecryptInit_ex arms construction and key,
EVP_CIPHER_CTX_set_padding clears padding, the per-call init sets iv. -/
structure EvpCipherCtx where
  cipherType : Option EVPCipherType
  key : List Nat
  padding : Bool
  iv : List Nat
deriving DecidableEq

/-- A context as returned by EVP_CIPHER_CTX_new. -/
def freshCipherCtx : EvpCipherCtx := { cipherType := none, key := [], padding := true, iv := [] }

/-- EVP_CIPHER_CTX_new: returns a fresh context, or NULL (none) when
allocation fails. -/
def EVP_CIPHER_CTX_new (ok : Bool) : Option EvpCipherCtx :=
  if ok then some freshCipherCtx else none

/-- EVP_{Encrypt,Decrypt}Init_ex with a construction and key (and no iv):
arms the context. -/
def armCtx (t : EVPCipherType) (key : List Nat) (c : EvpCipherCtx) : EvpCipherCtx :=
  { c with cipherType := some t, key := key }

/-- EVP_CIPHER_CTX_set_padding(ctx, 0). -/
def setPadOff (c : EvpCipherCtx) : EvpCipherCtx := { c with padding := false }

/-- Model of struct crypt_cipher: the pair of encrypt/decrypt backend
contexts, each possibly NULL on a partially constructed session. -/
structure crypt_cipher where
  hd_enc : Option EvpCipherCtx
  hd_dec : Option EvpCipherCtx
deriving DecidableEq

/-- EVP_CIPHER_CTX_free: a no-op on NULL per the library contract,
otherwise releases the context.  The model returns the list of
contexts actually released. -/
def evpCipherCtxFree : Option EvpCipherCtx → List EvpCipherCtx
  | none => []
  | some c => [c]

/-- Model of crypt_cipher_destroy: NULL-safe; frees hd_enc and hd_dec
through EVP_CIPHER_CTX_free (each of which tolerates NULL), then frees
the struct.  Returns the list of backend contexts released. -/
def crypt_cipher_destroy : Option crypt_cipher → List EvpCipherCtx
  | none => []
  | some h => evpCipherCtxFree h.hd_enc ++ evpCipherCtxFree h.hd_dec

/-- Model of the cipher-construction resolution in crypt_cipher_init
(lines 348-374): non-"aes" names are rejected with -ENOTSUP; for the
modes xts, cbc, ecb the key length selects the construction (the local
variable `type`), a key length with no construction leaving it NULL;
an unknown mode returns -ENOTSUP; a NULL `type` yields -EINVAL. -/
def resolve_cipher_type (name mode : String) (key_length : Nat) : Except Int EVPCipherType :=
  if name ≠ "aes" then .error (-ENOTSUP)
  else
    let type : Except Int (Option EVPCipherType) :=
      if mode = "xts" then
        .ok (if key_length = 32 then some .aes_128_xts
             else if key_length = 64 then some .aes_256_xts
             else none)
      else if mode = "cbc" then
        .ok (if key_length = 16 then some .aes_128_cbc
             else if key_length = 24 then some .aes_192_cbc
             else if key_length = 32 then some .aes_256_cbc
             else none)
      else if mode = "ecb" then
        .ok (if key_length = 16 then some .aes_128_ecb
             else if key_length = 24 then some .aes_192_ecb
             else if key_length = 32 then some .aes_256_ecb
             else none)
      else .error (-ENOTSUP)
    match type with
    | .error e => .error e
    | .ok none => .error (-EINVAL)
    | .ok (some t) => .ok t

/-- Result of crypt_cipher_init: the C return code, the value of the
out-parameter *ctx after the call (`outParam`, unchanged from the
given prior value on every error path), and the backend contexts
released by the teardown calls made inside init. -/
structure CipherInitResult where
  ret : Int
  outParam : Option crypt_cipher
  released : List EvpCipherCtx
deriving DecidableEq

/-- Model of crypt_cipher_init.  `ctx0` is the prior value of the
caller out-parameter; `mallocOk`, `encNewOk`, `decNewOk`, `encInitOk`,
`decInitOk`, `padEncOk`, `padDecOk` are the outcomes of malloc, the
two EVP_CIPHER_CTX_new calls, the two EVP_{En,De}cryptInit_ex calls
and the two EVP_CIPHER_CTX_set_padding calls.  The || in the C
sources short-circuits, so a failed first call of a pair leaves the
second uncalled; a failed backend call leaves its context unchanged. -/
def crypt_cipher_init (name mode : String) (key : List Nat) (key_length : Nat)
    (ctx0 : Option crypt_cipher)
    (mallocOk encNewOk decNewOk encInitOk decInitOk padEncOk padDecOk : Bool) :
    CipherInitResult :=
  match resolve_cipher_type name mode key_length with
  | .error e => { ret := e, outParam := ctx0, released := [] }
  | .ok t =>
    if !mallocOk then { ret := -ENOMEM, outParam := ctx0, released := [] }
    else
      let hd_enc := EVP_CIPHER_CTX_new encNewOk
      let hd_dec := EVP_CIPHER_CTX_new decNewOk
      if hd_enc.isNone || hd_dec.isNone then
        { ret := -EINVAL, outParam := ctx0,
          released := crypt_cipher_destroy (some { hd_enc := hd_enc, hd_dec := hd_dec }) }
      else if !encInitOk || !decInitOk then
        let he := if encInitOk then armCtx t key freshCipherCtx else freshCipherCtx
        -- DecryptInit_ex is reached only when EncryptInit_ex succeeded,
        -- and on this branch at least one of the two calls failed, so
        -- the decrypt context is still fresh here.
        { ret := -EINVAL, outParam := ctx0,
          released := crypt_cipher_destroy (some { hd_enc := some he, hd_dec := some freshCipherCtx }) }
      else
        let he := armCtx t key freshCipherCtx
        let hd := armCtx t key freshCipherCtx
        if !padEncOk || !padDecOk then
          let he2 := if padEncOk then setPadOff he else he
          { ret := -EINVAL, outParam := ctx0,
            released := crypt_cipher_destroy (some { hd_enc := some he2, hd_dec := some hd }) }
        else
          { ret := 0,
            outParam := some { hd_enc := some (setPadOff he), hd_dec := some (setPadOff hd) },
            released := [] }

/-- Model of crypt_cipher_encrypt for the padding-disabled contexts
the wrapper produces: re-initialises only the iv of the encrypt
context, then EVP_EncryptUpdate plus EVP_EncryptFinal transform the
whole buffer; with padding disabled the final step fails unless the
input length is a multiple of the EVP block size, and otherwise the
output is the backend transform of the input. -/
def crypt_cipher_encrypt (B : Backend) (ctx : crypt_cipher) (input iv : List Nat) :
    Except Int (List Nat) :=
  match ctx.hd_enc with
  | none => .error (-EINVAL)
  | some e =>
    match e.cipherType with
    | none => .error (-EINVAL)
    | some t =>
      if input.length % evpBlockSize t = 0 then .ok (B.encrypt t e.key iv input)
      else .error (-EINVAL)

/-- Model of crypt_cipher_decrypt, the symmetric counterpart on the
decrypt context. -/
def crypt_cipher_decrypt (B : Backend) (ctx : crypt_cipher) (input iv : List Nat) :
    Except Int (List Nat) :=
  match ctx.hd_dec with
  | none => .error (-EINVAL)
  | some d =>
    match d.cipherType with
    | none => .error (-EINVAL)
    | some t =>
      if input.length % evpBlockSize t = 0 then .ok (B.decrypt t d.key iv input)
      else .error (-EINVAL)

/-- Result of a finalize call: the C return code, the content of the
caller output buffer (`some` bytes once the memcpy has executed, none
if the call returned before it), the content of the stack scratch
buffer tmp at return, and the context state at return. -/
structure FinalResult (σ : Type) where
  ret : Int
  outBuf : Option (List Nat)
  scratch : List Nat
  ctx : σ
deriving DecidableEq

/-- Model of crypt_hash_init.  `ctx0` is the prior value of the caller
out-parameter *ctx; `mallocOk`, `mdNewOk` are the outcomes of malloc
and EVP_MD_CTX_new, `digestInitOk` that of EVP_DigestInit_ex.  The
out-parameter is written only on the success path. -/
def crypt_hash_init (B : Backend) (ctx0 : Option crypt_hash) (name : String)
    (mallocOk mdNewOk digestInitOk : Bool) : Int × Option crypt_hash :=
  if !mallocOk then (-ENOMEM, ctx0)
  else if !mdNewOk then (-ENOMEM, ctx0)
  else
    match B.getDigestByName name with
    | none => (-EINVAL, ctx0)
    | some id =>
      if !digestInitOk then (-EINVAL, ctx0)
      else (0, some { hash_id := id, hash_len := B.mdSize id, mdState := [] })

/-- Model of crypt_hash_restart: EVP_DigestInit_ex on the held digest
id; on success the running state is primed back to empty input. -/
def crypt_hash_restart (ctx : crypt_hash) (initOk : Bool) : Except Int crypt_hash :=
  if initOk then .ok { ctx with mdState := [] } else .error (-EINVAL)

/-- Model of crypt_hash_write: EVP_DigestUpdate absorbs the bytes;
a backend failure (updateOk = false) is returned as -EINVAL. -/
def crypt_hash_write (ctx : crypt_hash) (buffer : List Nat) (updateOk : Bool) :
    Except Int crypt_hash :=
  if updateOk then .ok { ctx with mdState := ctx.mdState ++ buffer }
  else .error (-EINVAL)

/-- Model of crypt_hash_final.  `tmp0` is the arbitrary initial
content of the 64-byte stack scratch tmp; `finalOk` is the outcome of
EVP_DigestFinal_ex, with `junk` the bytes that call deposited in tmp
in case it failed; `restartOk` is the outcome of the
EVP_DigestInit_ex inside crypt_hash_restart.  Mirrors the C exactly:
the length check returns first; a failed backend finalize returns
without zeroizing; otherwise tmp receives the digest, `length` bytes
are copied out, tmp is zeroized by crypt_backend_memzero, then the
tmp_len check and the restart run. -/
def crypt_hash_final (B : Backend) (ctx : crypt_hash) (length : Nat)
    (tmp0 : List Nat) (finalOk restartOk : Bool) (junk : List Nat) :
    FinalResult crypt_hash :=
  if length > ctx.hash_len then
    { ret := -EINVAL, outBuf := none, scratch := tmp0, ctx := ctx }
  else if !finalOk then
    { ret := -EINVAL, outBuf := none, scratch := writeBuf tmp0 junk, ctx := ctx }
  else
    let tmpv := B.digest ctx.hash_id ctx.mdState
    let tmp1 := writeBuf tmp0 tmpv
    let out := tmp1.take length
    let tmpz := List.replicate tmp0.length 0
    if tmpv.length < length then
      { ret := -EINVAL, outBuf := some out, scratch := tmpz, ctx := ctx }
    else
      match crypt_hash_restart ctx restartOk with
      | .error e => { ret := e, outBuf := some out, scratch := tmpz, ctx := ctx }
      | .ok ctx1 => { ret := 0, outBuf := some out, scratch := tmpz, ctx := ctx1 }

/-- Model of crypt_hmac_init.  `ctx0` is the prior value of the caller
out-parameter; `mallocOk`, `hmacNewOk` are the outcomes of malloc and
HMAC_CTX_new.  The return value of HMAC_Init_ex is not checked by the
C code, so there is no failure path for it; the key is retained in
the HMAC_CTX.  The out-parameter is written only on success. -/
def crypt_hmac_init (B : Backend) (ctx0 : Option crypt_hmac) (name : String)
    (key : List Nat) (mallocOk hmacNewOk : Bool) : Int × Option crypt_hmac :=
  if !mallocOk then (-ENOMEM, ctx0)
  else if !hmacNewOk then (-ENOMEM, ctx0)
  else
    match B.getDigestByName name with
    | none => (-EINVAL, ctx0)
    | some id =>
      (0, some { hash_id := id, hash_len := B.mdSize id, key := key, mdState := [] })

/-- Model of crypt_hmac_restart: HMAC_Init_ex(md, NULL, 0, hash_id,
NULL) re-initialises the running state while the NULL key makes the
context keep (re-arm with) its existing key. -/
def crypt_hmac_restart (ctx : crypt_hmac) : crypt_hmac := { ctx with mdState := [] }

/-- Model of crypt_hmac_write: the return value of HMAC_Update is
ignored and 0 is returned unconditionally; on an internal backend
failure (updateOk = false) the absorbed state is backend-defined,
modelled as unchanged. -/
def crypt_hmac_write (ctx : crypt_hmac) (buffer : List Nat) (updateOk : Bool) :
    Int × crypt_hmac :=
  (0, if updateOk then { ctx with mdState := ctx.mdState ++ buffer } else ctx)

/-- Model of crypt_hmac_final.  `tmp0` is the arbitrary initial
content of the stack scratch.  The return value of HMAC_Final is not
checked by the C code, so past the length check the MAC is always
deposited, copied out and zeroized, and the unconditional restart
re-arms the retained key. -/
def crypt_hmac_final (B : Backend) (ctx : crypt_hmac) (length : Nat)
    (tmp0 : List Nat) : FinalResult crypt_hmac :=
  if length > ctx.hash_len then
    { ret := -EINVAL, outBuf := none, scratch := tmp0, ctx := ctx }
  else
    let tmpv := B.hmac ctx.hash_id ctx.key ctx.mdState
    let tmp1 := writeBuf tmp0 tmpv
    let out := tmp1.take length
    let tmpz := List.replicate tmp0.length 0
    if tmpv.length < length then
      { ret := -EINVAL, outBuf := some out, scratch := tmpz, ctx := ctx }
    else
      { ret := 0, outBuf := some out, scratch := tmpz, ctx := crypt_hmac_restart ctx }

/-- Record of the delegate call issued by crypt_pbkdf: either
PKCS5_PBKDF2_HMAC with the resolved digest, password, salt, output
length and iteration count (memory and parallel costs are not passed),
or the argon2 delegate with the family string and all cost
parameters. -/
inductive KdfCall
  | pbkdf2Call (hash_id : String) (password salt : List Nat) (key_length iterations : Nat)
  | argon2Call (kdf : String) (password salt : List Nat)
      (key_length iterations memory parallel : Nat)
deriving DecidableEq

/-- Model of crypt_pbkdf: a NULL kdf fails with -EINVAL; the family
equal to "pbkdf2" resolves the hash by name (failing with -EINVAL if
unresolvable) and calls PKCS5_PBKDF2_HMAC; a family whose first six
characters are "argon2" (strncmp(kdf, "argon2", 6) == 0) delegates to
argon2, returning its code; any other family fails with -EINVAL.
The second component records which delegate was invoked and with
which arguments (none when no delegate ran). -/
def crypt_pbkdf (B : Backend) (kdf : Option String) (hash : String)
    (password salt : List Nat) (key_length iterations memory parallel : Nat) :
    Int × Option KdfCall :=
  match kdf with
  | none => (-EINVAL, none)
  | some k =>
    if k = "pbkdf2" then
      match B.getDigestByName hash with
      | none => (-EINVAL, none)
      | some id =>
        ((if B.pkcs5Ok id password salt key_length iterations then 0 else -EINVAL),
         some (.pbkdf2Call id password salt key_length iterations))
    else if k.take 6 = "argon2" then
      (B.argon2Ret k password salt key_length iterations memory parallel,
       some (.argon2Call k password salt key_length iterations memory parallel))
    else (-EINVAL, none)

/-- Concrete backend instance used to exercise the wrapper models on
closed inputs: one digest name, constant-length digests and MACs, and
an identity block cipher (which trivially satisfies the inversion and
length contracts assumed of the library). -/
def testBackend : Backend where
  getDigestByName := fun n => if n = "sha256" then some "sha256" else none
  mdSize := fun _ => 32
  digest := fun _ m => List.replicate 32 (m.length % 256)
  hmac := fun _ k m => List.replicate 32 ((k.length + 2 * m.length) % 256)
  encrypt := fun _ _ _ p => p
  decrypt := fun _ _ _ c => c
  pkcs5Ok := fun _ _ _ _ _ => true
  argon2Ret := fun _ _ _ _ _ _ _ => 0

/-- Predicate written from the words of the spec: the supported
(cipher, mode, keyLength) table, xts with 32 or 64 byte keys, cbc or
ecb with 16, 24 or 32 byte keys, cipher name "aes" only. -/
def spec_supported (name mode : String) (kl : Nat) : Prop :=
  name = "aes" ∧ ((mode = "xts" ∧ (kl = 32 ∨ kl = 64)) ∨
    ((mode = "cbc" ∨ mode = "ecb") ∧ (kl = 16 ∨ kl = 24 ∨ kl = 32)))

instance (name mode : String) (kl : Nat) : Decidable (spec_supported name mode kl) := by
  unfold spec_supported; infer_instance

/-- Helper: every supported combination resolves to some construction. -/
theorem resolve_ok_of_supported (name mode : String) (kl : Nat)
    (h : spec_supported name mode kl) :
    ∃ t, resolve_cipher_type name mode kl = .ok t := by
  obtain ⟨hn, hrest⟩ := h
  subst hn
  rcases hrest with ⟨hm, hk⟩ | ⟨hm, hk⟩
  · subst hm
    rcases hk with h | h <;> subst h
    · exact ⟨.aes_128_xts, rfl⟩
    · exact ⟨.aes_256_xts, rfl⟩
  · rcases hm with hm | hm <;> subst hm <;> rcases hk with h | h | h <;> subst h
    · exact ⟨.aes_128_cbc, rfl⟩
    · exact ⟨.aes_192_cbc, rfl⟩
    · exact ⟨.aes_256_cbc, rfl⟩
    · exact ⟨.aes_128_ecb, rfl⟩
    · exact ⟨.aes_192_ecb, rfl⟩
    · exact ⟨.aes_256_ecb, rfl⟩

/-- Helper: a buffer length divisible by 16 is divisible by the EVP
block size of every reachable construction (which is 1 or 16). -/
theorem blockAligned_of_16 (t : EVPCipherType) (n : Nat) (h : n % 16 = 0) :
    n % evpBlockSize t = 0 := by
  cases t <;> simp [evpBlockSize] <;> omega

/-- Helper equation: resolution for aes/xts by key length. -/
theorem resolve_aes_xts (kl : Nat) : resolve_cipher_type "aes" "xts" kl =
    (if kl = 32 then .ok .aes_128_xts else if kl = 64 then .ok .aes_256_xts
     else .error (-EINVAL)) := by
  by_cases h32 : kl = 32
  · subst h32; rfl
  · by_cases h64 : kl = 64
    · subst h64; rfl
    · simp [resolve_cipher_type, h32, h64]

/-- Helper equation: resolution for aes/cbc by key length. -/
theorem resolve_aes_cbc (kl : Nat) : resolve_cipher_type "aes" "cbc" kl =
    (if kl = 16 then .ok .aes_128_cbc else if kl = 24 then .ok .aes_192_cbc
     else if kl = 32 then .ok .aes_256_cbc else .error (-EINVAL)) := by
  by_cases h16 : kl = 16
  · subst h16; rfl
  · by_cases h24 : kl = 24
    · subst h24; rfl
    · by_cases h32 : kl = 32
      · subst h32; rfl
      · simp [resolve_cipher_type, h16, h24, h32]

/-- Helper equation: resolution for aes/ecb by key length. -/
theorem resolve_aes_ecb (kl : Nat) : resolve_cipher_type "aes" "ecb" kl =
    (if kl = 16 then .ok .aes_128_ecb else if kl = 24 then .ok .aes_192_ecb
     else if kl = 32 then .ok .aes_256_ecb else .error (-EINVAL)) := by
  by_cases h16 : kl = 16
  · subst h16; rfl
  · by_cases h24 : kl = 24
    · subst h24; rfl
    · by_cases h32 : kl = 32
      · subst h32; rfl
      · simp [resolve_cipher_type, h16, h24, h32]

/-- Helper equation: any cipher name other than "aes" is rejected with
-ENOTSUP. -/
theorem resolve_not_aes (name mode : String) (kl : Nat) (h : name ≠ "aes") :
    resolve_cipher_type name mode kl = .error (-ENOTSUP) := by
  simp [resolve_cipher_type, h]

/-- Helper equation: cipher "aes" with a mode other than xts, cbc, ecb
is rejected with -ENOTSUP. -/
theorem resolve_unknown_mode (mode : String) (kl : Nat)
    (h1 : mode ≠ "xts") (h2 : mode ≠ "cbc") (h3 : mode ≠ "ecb") :
    resolve_cipher_type "aes" mode kl = .error (-ENOTSUP) := by
  simp [resolve_cipher_type, h1, h2, h3]

/-- C2 (corrected).  Cipher resolution in crypt_cipher_init succeeds
exactly for cipher "aes" with (mode, keyLength) in the supported table
{xts:32, xts:64, cbc:16, cbc:24, cbc:32, ecb:16, ecb:24, ecb:32}; any
cipher name other than "aes" fails with -ENOTSUP (the unsupported
algorithm code); cipher "aes" with a recognized mode but an
unsupported key length fails with -EINVAL (the unsupported parameters
code); and cipher "aes" with an unrecognized mode fails with -ENOTSUP,
the same code as an unsupported algorithm — not with the unsupported
parameters code, contrary to the original claim. -/
theorem cipher_resolution_cases (name mode : String) (kl : Nat) :
    ((∃ t, resolve_cipher_type name mode kl = .ok t) ↔ spec_supported name mode kl) ∧
    (name ≠ "aes" → resolve_cipher_type name mode kl = .error (-ENOTSUP)) ∧
    (name = "aes" → (mode = "xts" ∨ mode = "cbc" ∨ mode = "ecb") →
       ¬ spec_supported name mode kl → resolve_cipher_type name mode kl = .error (-EINVAL)) ∧
    (name = "aes" → ¬ (mode = "xts" ∨ mode = "cbc" ∨ mode = "ecb") →
       resolve_cipher_type name mode kl = .error (-ENOTSUP)) := by
  by_cases hn : name = "aes"
  · subst hn
    by_cases hx : mode = "xts"
    · subst hx
      refine ⟨?_, by simp, ?_, ?_⟩
      · rw [resolve_aes_xts]
        by_cases h32 : kl = 32 <;> by_cases h64 : kl = 64 <;>
          simp [spec_supported, h32, h64]
      · intro _ _ hns
        rw [resolve_aes_xts]
        simp only [spec_supported] at hns
        by_cases h32 : kl = 32
        · exact absurd (by simp [h32]) hns
        · by_cases h64 : kl = 64
          · exact absurd (by simp [h64]) hns
          · simp [h32, h64]
      · intro _ h; exact absurd (Or.inl rfl) h
    · by_cases hc : mode = "cbc"
      · subst hc
        refine ⟨?_, by simp, ?_, ?_⟩
        · rw [resolve_aes_cbc]
          by_cases h16 : kl = 16 <;> by_cases h24 : kl = 24 <;> by_cases h32 : kl = 32 <;>
            simp [spec_supported, h16, h24, h32]
        · intro _ _ hns
          rw [resolve_aes_cbc]
          simp only [spec_supported] at hns
          by_cases h16 : kl = 16
          · exact absurd (by simp [h16]) hns
          · by_cases h24 : kl = 24
            · exact absurd (by simp [h24]) hns
            · by_cases h32 : kl = 32
              · exact absurd (by simp [h32]) hns
              · simp [h16, h24, h32]
        · intro _ h; exact absurd (Or.inr (Or.inl rfl)) h
      · by_cases he : mode = "ecb"
        · subst he
          refine ⟨?_, by simp, ?_, ?_⟩
          · rw [resolve_aes_ecb]
            by_cases h16 : kl = 16 <;> by_cases h24 : kl = 24 <;> by_cases h32 : kl = 32 <;>
              simp [spec_supported, h16, h24, h32]
          · intro _ _ hns
            rw [resolve_aes_ecb]
            simp only [spec_supported] at hns
            by_cases h16 : kl = 16
            · exact absurd (by simp [h16]) hns
            · by_cases h24 : kl = 24
              · exact absurd (by simp [h24]) hns
              · by_cases h32 : kl = 32
                · exact absurd (by simp [h32]) hns
                · simp [h16, h24, h32]
          · intro _ h; exact absurd (Or.inr (Or.inr rfl)) h
        · refine ⟨?_, by simp, ?_, ?_⟩
          · rw [resolve_unknown_mode mode kl hx hc he]
            simp [spec_supported, hx, hc, he]
          · intro _ hm; exact absurd hm (by simp [hx, hc, he])
          · intro _ _; exact resolve_unknown_mode mode kl hx hc he
  · refine ⟨?_, fun _ => resolve_not_aes name mode kl hn, ?_, ?_⟩
    · rw [resolve_not_aes name mode kl hn]
      simp [spec_supported, hn]
    · intro h; exact absurd h hn
    · intro h; exact absurd h hn

/-- C2 counterexample to the claim as stated: cipher "aes" with the
unrecognized mode "gcm" fails with -ENOTSUP, the very code that a
non-"aes" cipher name produces, while an unsupported key length under
a recognized mode fails with the distinct code -EINVAL; so the claimed
single UnsupportedParameters outcome for all bad aes combinations does
not match the code. -/
theorem cipher_resolution_claim_counterexample :
    resolve_cipher_type "aes" "gcm" 32 = .error (-ENOTSUP) ∧
    resolve_cipher_type "aes" "xts" 16 = .error (-EINVAL) ∧
    resolve_cipher_type "des" "cbc" 16 = .error (-ENOTSUP) ∧
    (-ENOTSUP : Int) ≠ (-EINVAL : Int) :=
  ⟨rfl, rfl, rfl, by decide⟩

/-- Witness for cipher_resolution_cases at a concrete input. -/
theorem cipher_resolution_cases_witness :
    resolve_cipher_type "serpent" "cbc" 16 = .error (-ENOTSUP) :=
  (cipher_resolution_cases "serpent" "cbc" 16).2.1 (by decide)

/-- Helper: with a resolvable combination and all backend calls
succeeding, crypt_cipher_init arms both contexts with the same
construction and key and disables padding on both. -/
theorem cipher_init_success (name mode : String) (key : List Nat) (kl : Nat)
    (ctx0 : Option crypt_cipher) (t : EVPCipherType)
    (hRes : resolve_cipher_type name mode kl = .ok t) :
    crypt_cipher_init name mode key kl ctx0 true true true true true true true =
      { ret := 0,
        outParam := some
          { hd_enc := some { cipherType := some t, key := key, padding := false, iv := [] },
            hd_dec := some { cipherType := some t, key := key, padding := false, iv := [] } },
        released := [] } := by
  unfold crypt_cipher_init
  rw [hRes]
  rfl

/-- C1 (confirmed, relative to the library contract).  For every
supported mode and key length, any key, any IV and any 16-byte-aligned
plaintext, a session built by crypt_cipher_init round-trips:
crypt_cipher_decrypt of the crypt_cipher_encrypt output returns the
original plaintext.  The inversion and length-preservation of the
external AES primitives themselves are hypotheses (hInv, hLen): the
theorem shows the wrapper arms both directions with the same
construction and key and composes them so that the round trip follows. -/
theorem cipher_encrypt_decrypt_roundtrip (B : Backend)
    (hInv : ∀ t key iv p, p.length % evpBlockSize t = 0 →
        B.decrypt t key iv (B.encrypt t key iv p) = p)
    (hLen : ∀ t key iv p, (B.encrypt t key iv p).length = p.length)
    (name mode : String) (key : List Nat) (key_length : Nat)
    (ctx0 : Option crypt_cipher) (iv p : List Nat)
    (hSup : spec_supported name mode key_length)
    (hAlign : p.length % 16 = 0) :
    (crypt_cipher_init name mode key key_length ctx0 true true true true true true true).ret = 0 ∧
    ∃ s, (crypt_cipher_init name mode key key_length ctx0
            true true true true true true true).outParam = some s ∧
      ∃ c, crypt_cipher_encrypt B s p iv = .ok c ∧ c.length = p.length ∧
        crypt_cipher_decrypt B s c iv = .ok p := by
  obtain ⟨t, hRes⟩ := resolve_ok_of_supported name mode key_length hSup
  rw [cipher_init_success name mode key key_length ctx0 t hRes]
  have hA : p.length % evpBlockSize t = 0 := blockAligned_of_16 t p.length hAlign
  have hC : (B.encrypt t key iv p).length % evpBlockSize t = 0 := by rw [hLen]; exact hA
  refine ⟨rfl, _, rfl, B.encrypt t key iv p, ?_, hLen t key iv p, ?_⟩
  · simp [crypt_cipher_encrypt, hA]
  · simp [crypt_cipher_decrypt, hC, hInv t key iv p hA]

/-- Witness for cipher_encrypt_decrypt_roundtrip at a concrete input. -/
theorem cipher_encrypt_decrypt_roundtrip_witness :
    ∃ s, (crypt_cipher_init "aes" "cbc" (List.replicate 16 0) 16 none
            true true true true true true true).outParam = some s ∧
      ∃ c, crypt_cipher_encrypt testBackend s (List.replicate 16 3) (List.replicate 16 1) = .ok c ∧
        crypt_cipher_decrypt testBackend s c (List.replicate 16 1) = .ok (List.replicate 16 3) := by
  obtain ⟨-, s, hs, c, h1, -, h2⟩ :=
    cipher_encrypt_decrypt_roundtrip testBackend
      (fun _ _ _ _ _ => rfl) (fun _ _ _ _ => rfl)
      "aes" "cbc" (List.replicate 16 0) 16 none (List.replicate 16 1) (List.replicate 16 3)
      (by decide) (by decide)
  exact ⟨s, hs, c, h1, h2⟩

/-- Helper: the first n bytes of the scratch after the backend wrote w
into it are the first n bytes of w, when w has at least n bytes. -/
theorem take_writeBuf (buf w : List Nat) (n : Nat) (h : n ≤ w.length) :
    (writeBuf buf w).take n = w.take n := by
  unfold writeBuf
  rw [List.take_append_eq_append_take]
  simp [Nat.sub_eq_zero_of_le h]

/-- Helper: on the full success path (length within bounds, backend
finalize and restart succeeding) crypt_hash_final returns 0, copies
the first `length` digest bytes out, zeroizes the scratch and resets
the running state to empty input. -/
theorem hash_final_success_eq (B : Backend) (ctx : crypt_hash) (length : Nat)
    (tmp0 junk : List Nat)
    (hle : length ≤ ctx.hash_len)
    (hdl : length ≤ (B.digest ctx.hash_id ctx.mdState).length) :
    crypt_hash_final B ctx length tmp0 true true junk =
      { ret := 0, outBuf := some ((B.digest ctx.hash_id ctx.mdState).take length),
        scratch := List.replicate tmp0.length 0,
        ctx := { ctx with mdState := [] } } := by
  have h1 : ¬ (length > ctx.hash_len) := by omega
  have h2 : ¬ ((B.digest ctx.hash_id ctx.mdState).length < length) := by omega
  simp [crypt_hash_final, crypt_hash_restart, h1, h2,
        take_writeBuf tmp0 (B.digest ctx.hash_id ctx.mdState) length hdl]

/-- Helper: a zero return from crypt_hash_final forces the length
check, the backend finalize, the digest-size check and the restart to
all have passed. -/
theorem hash_final_ret_facts (B : Backend) (ctx : crypt_hash) (length : Nat)
    (tmp0 junk : List Nat) (finalOk restartOk : Bool)
    (h0 : (crypt_hash_final B ctx length tmp0 finalOk restartOk junk).ret = 0) :
    length ≤ ctx.hash_len ∧ finalOk = true ∧ restartOk = true ∧
    length ≤ (B.digest ctx.hash_id ctx.mdState).length := by
  by_cases h1 : length > ctx.hash_len
  · exfalso
    have heq : (crypt_hash_final B ctx length tmp0 finalOk restartOk junk).ret = -EINVAL := by
      unfold crypt_hash_final; rw [if_pos h1]
    rw [heq] at h0; exact absurd h0 (by decide)
  · cases finalOk with
    | false =>
      exfalso
      have heq : (crypt_hash_final B ctx length tmp0 false restartOk junk).ret = -EINVAL := by
        simp [crypt_hash_final, h1]
      rw [heq] at h0; exact absurd h0 (by decide)
    | true =>
      by_cases h2 : (B.digest ctx.hash_id ctx.mdState).length < length
      · exfalso
        have heq : (crypt_hash_final B ctx length tmp0 true restartOk junk).ret = -EINVAL := by
          simp [crypt_hash_final, h1, h2]
        rw [heq] at h0; exact absurd h0 (by decide)
      · cases restartOk with
        | false =>
          exfalso
          have heq : (crypt_hash_final B ctx length tmp0 true false junk).ret = -EINVAL := by
            simp [crypt_hash_final, crypt_hash_restart, h1, h2]
          rw [heq] at h0; exact absurd h0 (by decide)
        | true => exact ⟨by omega, rfl, rfl, by omega⟩

/-- Helper: once the backend finalize has run (finalOk), the scratch
buffer is zeroized on every exit of crypt_hash_final, whichever of the
later checks fails. -/
theorem hash_final_scratch_zero (B : Backend) (ctx : crypt_hash) (length : Nat)
    (tmp0 junk : List Nat) (restartOk : Bool)
    (hle : length ≤ ctx.hash_len) :
    (crypt_hash_final B ctx length tmp0 true restartOk junk).scratch =
      List.replicate tmp0.length 0 := by
  have h1 : ¬ (length > ctx.hash_len) := by omega
  by_cases h2 : (B.digest ctx.hash_id ctx.mdState).length < length <;>
    cases restartOk <;> simp [crypt_hash_final, crypt_hash_restart, h1, h2]

/-- Helper: on the success path (length within bounds, MAC at least
`length` bytes) crypt_hmac_final returns 0, copies the truncated MAC
out, zeroizes the scratch and restarts with the retained key. -/
theorem hmac_final_success_eq (B : Backend) (ctx : crypt_hmac) (length : Nat)
    (tmp0 : List Nat)
    (hle : length ≤ ctx.hash_len)
    (hdl : length ≤ (B.hmac ctx.hash_id ctx.key ctx.mdState).length) :
    crypt_hmac_final B ctx length tmp0 =
      { ret := 0, outBuf := some ((B.hmac ctx.hash_id ctx.key ctx.mdState).take length),
        scratch := List.replicate tmp0.length 0,
        ctx := { ctx with mdState := [] } } := by
  have h1 : ¬ (length > ctx.hash_len) := by omega
  have h2 : ¬ ((B.hmac ctx.hash_id ctx.key ctx.mdState).length < length) := by omega
  simp [crypt_hmac_final, crypt_hmac_restart, h1, h2,
        take_writeBuf tmp0 (B.hmac ctx.hash_id ctx.key ctx.mdState) length hdl]

/-- Helper: past the length check the scratch buffer of
crypt_hmac_final is zeroized on every exit. -/
theorem hmac_final_scratch_zero (B : Backend) (ctx : crypt_hmac) (length : Nat)
    (tmp0 : List Nat) (hle : length ≤ ctx.hash_len) :
    (crypt_hmac_final B ctx length tmp0).scratch = List.replicate tmp0.length 0 := by
  have h1 : ¬ (length > ctx.hash_len) := by omega
  by_cases h2 : (B.hmac ctx.hash_id ctx.key ctx.mdState).length < length <;>
    simp [crypt_hmac_final, crypt_hmac_restart, h1, h2]

/-- Helper: a zero return from crypt_hmac_final forces the length
check and the MAC-size check to have passed. -/
theorem hmac_final_ret_facts (B : Backend) (ctx : crypt_hmac) (length : Nat)
    (tmp0 : List Nat)
    (h0 : (crypt_hmac_final B ctx length tmp0).ret = 0) :
    length ≤ ctx.hash_len ∧ length ≤ (B.hmac ctx.hash_id ctx.key ctx.mdState).length := by
  by_cases h1 : length > ctx.hash_len
  · exfalso
    have heq : (crypt_hmac_final B ctx length tmp0).ret = -EINVAL := by
      unfold crypt_hmac_final; rw [if_pos h1]
    rw [heq] at h0; exact absurd h0 (by decide)
  · by_cases h2 : (B.hmac ctx.hash_id ctx.key ctx.mdState).length < length
    · exfalso
      have heq : (crypt_hmac_final B ctx length tmp0).ret = -EINVAL := by
        simp [crypt_hmac_final, h1, h2]
      rw [heq] at h0; exact absurd h0 (by decide)
    · exact ⟨by omega, by omega⟩

/-- C3 (confirmed).  A successful crypt_hash_final re-primes the
context to the byte-identical empty-input initial state: the context
it leaves behind equals the one a fresh crypt_hash_init of the same
digest produces, and a second finalize with no intervening write
copies out the digest of the empty string. -/
theorem hash_finalize_reprimes (B : Backend) (ctx : crypt_hash) (name : String)
    (length : Nat) (tmp0 junk : List Nat) (finalOk restartOk : Bool)
    (c0 : Option crypt_hash)
    (hName : B.getDigestByName name = some ctx.hash_id)
    (hSz : B.mdSize ctx.hash_id = ctx.hash_len)
    (hDig0 : (B.digest ctx.hash_id []).length = ctx.hash_len)
    (h0 : (crypt_hash_final B ctx length tmp0 finalOk restartOk junk).ret = 0) :
    (crypt_hash_final B ctx length tmp0 finalOk restartOk junk).ctx =
      { hash_id := ctx.hash_id, hash_len := ctx.hash_len, mdState := [] } ∧
    (crypt_hash_init B c0 name true true true).2 =
      some ((crypt_hash_final B ctx length tmp0 finalOk restartOk junk).ctx) ∧
    ∀ tmp1 junk1,
      (crypt_hash_final B ((crypt_hash_final B ctx length tmp0 finalOk restartOk junk).ctx)
          length tmp1 true true junk1).outBuf =
        some ((B.digest ctx.hash_id []).take length) := by
  obtain ⟨hle, hf, hr, hdl⟩ :=
    hash_final_ret_facts B ctx length tmp0 junk finalOk restartOk h0
  subst hf; subst hr
  rw [hash_final_success_eq B ctx length tmp0 junk hle hdl]
  refine ⟨rfl, ?_, ?_⟩
  · simp [crypt_hash_init, hName, hSz]
  · intro tmp1 junk1
    rw [hash_final_success_eq B { ctx with mdState := [] } length tmp1 junk1 hle
          (by simpa [hDig0] using hle)]

/-- Witness for hash_finalize_reprimes at a concrete input. -/
theorem hash_finalize_reprimes_witness :
    (crypt_hash_final testBackend
        ((crypt_hash_final testBackend
            { hash_id := "sha256", hash_len := 32, mdState := [7, 7] }
            16 (List.replicate 64 9) true true []).ctx)
        16 (List.replicate 64 5) true true []).outBuf =
      some ((testBackend.digest "sha256" []).take 16) :=
  (hash_finalize_reprimes testBackend
      { hash_id := "sha256", hash_len := 32, mdState := [7, 7] }
      "sha256" 16 (List.replicate 64 9) [] true true none
      (by decide) (by decide) (by decide) (by decide)).2.2
    (List.replicate 64 5) []

/-- C4 (confirmed).  After a successful crypt_hmac_final, a write of a
new message followed by another finalize produces the MAC of the new
message under the original key, the key never being re-supplied: the
implicit restart re-arms the retained key. -/
theorem hmac_key_persistence (B : Backend) (ctx : crypt_hmac) (length : Nat)
    (tmp0 m : List Nat)
    (hMacLen : ∀ msg, (B.hmac ctx.hash_id ctx.key msg).length = ctx.hash_len)
    (h0 : (crypt_hmac_final B ctx length tmp0).ret = 0) :
    ((crypt_hmac_write ((crypt_hmac_final B ctx length tmp0).ctx) m true).2).key = ctx.key ∧
    ∀ len2 tmp1, len2 ≤ ctx.hash_len →
      (crypt_hmac_final B ((crypt_hmac_write ((crypt_hmac_final B ctx length tmp0).ctx) m true).2)
          len2 tmp1).ret = 0 ∧
      (crypt_hmac_final B ((crypt_hmac_write ((crypt_hmac_final B ctx length tmp0).ctx) m true).2)
          len2 tmp1).outBuf = some ((B.hmac ctx.hash_id ctx.key m).take len2) := by
  obtain ⟨hle, hdl⟩ := hmac_final_ret_facts B ctx length tmp0 h0
  rw [hmac_final_success_eq B ctx length tmp0 hle hdl]
  have hw : (crypt_hmac_write { ctx with mdState := ([] : List Nat) } m true).2 =
      { ctx with mdState := m } := by
    simp [crypt_hmac_write]
  rw [hw]
  refine ⟨rfl, ?_⟩
  intro len2 tmp1 hlen2
  rw [hmac_final_success_eq B { ctx with mdState := m } len2 tmp1 hlen2
        (by simpa [hMacLen m] using hlen2)]
  exact ⟨rfl, rfl⟩

/-- Witness for hmac_key_persistence at a concrete input. -/
theorem hmac_key_persistence_witness :
    (crypt_hmac_final testBackend
        ((crypt_hmac_write ((crypt_hmac_final testBackend
              { hash_id := "sha256", hash_len := 32, key := [1, 2], mdState := [3] }
              8 (List.replicate 64 4)).ctx) [9, 9] true).2)
        8 (List.replicate 64 6)).outBuf =
      some ((testBackend.hmac "sha256" [1, 2] [9, 9]).take 8) :=
  ((hmac_key_persistence testBackend
      { hash_id := "sha256", hash_len := 32, key := [1, 2], mdState := [3] }
      8 (List.replicate 64 4) [9, 9]
      (fun _ => rfl) (by decide)).2 8 (List.replicate 64 6) (by decide)).2

/-- C7 (confirmed).  For both engines, finalize with a requested
length greater than the natural digest size fails with -EINVAL (the
LengthExceeded code), and with a requested length at most the natural
size it succeeds (given a healthy backend) and copies out exactly the
first `length` bytes of the full digest or MAC. -/
theorem finalize_length_contract (B : Backend) (ctx : crypt_hash) (hm : crypt_hmac)
    (length : Nat) (tmp0 tmp0m junk : List Nat) (finalOk restartOk : Bool)
    (hDig : (B.digest ctx.hash_id ctx.mdState).length = ctx.hash_len)
    (hMac : (B.hmac hm.hash_id hm.key hm.mdState).length = hm.hash_len) :
    (length > ctx.hash_len →
       (crypt_hash_final B ctx length tmp0 finalOk restartOk junk).ret = -EINVAL) ∧
    (length > hm.hash_len → (crypt_hmac_final B hm length tmp0m).ret = -EINVAL) ∧
    (length ≤ ctx.hash_len →
       (crypt_hash_final B ctx length tmp0 true true junk).ret = 0 ∧
       (crypt_hash_final B ctx length tmp0 true true junk).outBuf =
         some ((B.digest ctx.hash_id ctx.mdState).take length)) ∧
    (length ≤ hm.hash_len →
       (crypt_hmac_final B hm length tmp0m).ret = 0 ∧
       (crypt_hmac_final B hm length tmp0m).outBuf =
         some ((B.hmac hm.hash_id hm.key hm.mdState).take length)) := by
  refine ⟨?_, ?_, ?_, ?_⟩
  · intro h; unfold crypt_hash_final; rw [if_pos h]
  · intro h; unfold crypt_hmac_final; rw [if_pos h]
  · intro h
    rw [hash_final_success_eq B ctx length tmp0 junk h (by omega)]
    exact ⟨rfl, rfl⟩
  · intro h
    rw [hmac_final_success_eq B hm length tmp0m h (by omega)]
    exact ⟨rfl, rfl⟩

/-- Witness for finalize_length_contract at a concrete input: for the
digest of natural size 32, requesting 33 bytes fails on both engines. -/
theorem finalize_length_contract_witness :
    (crypt_hash_final testBackend { hash_id := "sha256", hash_len := 32, mdState := [] }
        33 (List.replicate 64 0) true true []).ret = -EINVAL ∧
    (crypt_hmac_final testBackend
        { hash_id := "sha256", hash_len := 32, key := [1], mdState := [] }
        33 (List.replicate 64 0)).ret = -EINVAL := by
  have h := finalize_length_contract testBackend
      { hash_id := "sha256", hash_len := 32, mdState := [] }
      { hash_id := "sha256", hash_len := 32, key := [1], mdState := [] }
      33 (List.replicate 64 0) (List.replicate 64 0) [] true true
      (by decide) (by decide)
  exact ⟨h.1 (by decide), h.2.1 (by decide)⟩

/-- C5 (amended claim, proved).  For both finalize functions the
scratch buffer is zeroized before return on every exit path that is
reached after the backend digest/MAC computation has run: for the
hash engine every path with EVP_DigestFinal_ex succeeding, for the
HMAC engine every path past the length check (HMAC_Final is
unconditional there).  The excluded paths are the early
output-length-check return, where the scratch never held a digest,
and the hash path where EVP_DigestFinal_ex itself fails, where the
function returns without zeroizing. -/
theorem finalize_scratch_zeroized (B : Backend) (ctx : crypt_hash) (hm : crypt_hmac)
    (length : Nat) (tmp0 tmp0m junk : List Nat) (restartOk : Bool)
    (h1 : length ≤ ctx.hash_len) (h2 : length ≤ hm.hash_len) :
    (crypt_hash_final B ctx length tmp0 true restartOk junk).scratch =
      List.replicate tmp0.length 0 ∧
    (crypt_hmac_final B hm length tmp0m).scratch = List.replicate tmp0m.length 0 :=
  ⟨hash_final_scratch_zero B ctx length tmp0 junk restartOk h1,
   hmac_final_scratch_zero B hm length tmp0m h2⟩

/-- Witness for finalize_scratch_zeroized at a concrete input. -/
theorem finalize_scratch_zeroized_witness :
    (crypt_hash_final testBackend { hash_id := "sha256", hash_len := 32, mdState := [1] }
        16 (List.replicate 64 7) true true []).scratch = List.replicate 64 0 ∧
    (crypt_hmac_final testBackend
        { hash_id := "sha256", hash_len := 32, key := [2], mdState := [1] }
        16 (List.replicate 64 7)).scratch = List.replicate 64 0 := by
  have h := finalize_scratch_zeroized testBackend
      { hash_id := "sha256", hash_len := 32, mdState := [1] }
      { hash_id := "sha256", hash_len := 32, key := [2], mdState := [1] }
      16 (List.replicate 64 7) (List.replicate 64 7) [] true (by decide) (by decide)
  simpa using h

/-- C5 counterexample to the claim as stated: on the exit path of
crypt_hash_final where EVP_DigestFinal_ex fails (here having deposited
the byte 5 in the scratch before failing), the function returns
-EINVAL without zeroizing, and the scratch is not all-zero. -/
theorem hash_final_error_scratch_counterexample :
    (crypt_hash_final testBackend { hash_id := "sha256", hash_len := 32, mdState := [] }
        16 (List.replicate 64 7) false true [5]).ret = -EINVAL ∧
    (crypt_hash_final testBackend { hash_id := "sha256", hash_len := 32, mdState := [] }
        16 (List.replicate 64 7) false true [5]).scratch ≠ List.replicate 64 0 := by
  constructor
  · rfl
  · decide

/-- C9 (amended claim, proved).  crypt_hash_write reports a backend
failure of EVP_DigestUpdate as -EINVAL and succeeds otherwise, but
crypt_hmac_write ignores the result of HMAC_Update and returns 0
unconditionally, even when the backend call failed. -/
theorem write_error_reporting (ctx : crypt_hash) (hm : crypt_hmac) (buf : List Nat) :
    crypt_hash_write ctx buf false = .error (-EINVAL) ∧
    crypt_hash_write ctx buf true = .ok { ctx with mdState := ctx.mdState ++ buf } ∧
    (∀ updateOk, (crypt_hmac_write hm buf updateOk).1 = 0) :=
  ⟨rfl, rfl, fun _ => rfl⟩

/-- C9 counterexample to the claim as stated: an HMAC write whose
backend update failed still returns 0 (success); the failure is
silently swallowed rather than reported as a DigestFailure. -/
theorem hmac_write_swallows_failure :
    (crypt_hmac_write { hash_id := "sha256", hash_len := 32, key := [1], mdState := [] }
        [9] false).1 = 0 := rfl

/-- C6 (confirmed).  crypt_pbkdf routes by family name: exactly
"pbkdf2" resolves the hash name (failing with -EINVAL if
unresolvable, the code for UnknownAlgorithm) and invokes
PKCS5_PBKDF2_HMAC with password, salt, output length and iteration
count only — memory and parallelism are not forwarded, and the result
does not depend on them; a family whose first six characters are
"argon2" delegates to argon2 forwarding all six parameters, the hash
name being ignored; any other family fails with -EINVAL (the code for
UnsupportedKdf; the backend collapses it with UnknownAlgorithm). -/
theorem kdf_dispatch (B : Backend) (k hash hash2 : String)
    (password salt : List Nat) (key_length iterations memory parallel m2 p2 : Nat) :
    (B.getDigestByName hash = none →
       crypt_pbkdf B (some "pbkdf2") hash password salt key_length iterations memory parallel =
         (-EINVAL, none)) ∧
    (∀ id, B.getDigestByName hash = some id →
       (crypt_pbkdf B (some "pbkdf2") hash password salt key_length iterations memory parallel).2 =
         some (.pbkdf2Call id password salt key_length iterations) ∧
       crypt_pbkdf B (some "pbkdf2") hash password salt key_length iterations memory parallel =
         crypt_pbkdf B (some "pbkdf2") hash password salt key_length iterations m2 p2) ∧
    (k.take 6 = "argon2" →
       crypt_pbkdf B (some k) hash password salt key_length iterations memory parallel =
         (B.argon2Ret k password salt key_length iterations memory parallel,
          some (.argon2Call k password salt key_length iterations memory parallel)) ∧
       crypt_pbkdf B (some k) hash password salt key_length iterations memory parallel =
         crypt_pbkdf B (some k) hash2 password salt key_length iterations memory parallel) ∧
    (k ≠ "pbkdf2" → k.take 6 ≠ "argon2" →
       crypt_pbkdf B (some k) hash password salt key_length iterations memory parallel =
         (-EINVAL, none)) := by
  refine ⟨?_, ?_, ?_, ?_⟩
  · intro h; simp [crypt_pbkdf, h]
  · intro id h; constructor <;> simp [crypt_pbkdf, h]
  · intro h
    have hne : k ≠ "pbkdf2" := by
      intro he; subst he; exact absurd h (by decide)
    constructor <;> simp [crypt_pbkdf, hne, h]
  · intro h1 h2; simp [crypt_pbkdf, h1, h2]

/-- Witness for kdf_dispatch at concrete inputs. -/
theorem kdf_dispatch_witness :
    crypt_pbkdf testBackend (some "argon2id") "sha256" [1] [2] 32 4 65536 4 =
      (0, some (.argon2Call "argon2id" [1] [2] 32 4 65536 4)) ∧
    crypt_pbkdf testBackend (some "unknownkdf") "sha256" [1] [2] 32 4 0 0 =
      (-EINVAL, none) := by
  constructor
  · exact ((kdf_dispatch testBackend "argon2id" "sha256" "sha1" [1] [2] 32 4 65536 4 0 0).2.2.1
      (by decide)).1
  · exact (kdf_dispatch testBackend "unknownkdf" "sha256" "sha1" [1] [2] 32 4 0 0 0 0).2.2.2
      (by decide) (by decide)

set_option linter.unnecessarySeqFocus false in
/-- Helper: every error code of the cipher resolution is negative
(it is -ENOTSUP or -EINVAL), so an error is never mistaken for the
zero success return. -/
theorem resolve_error_neg (name mode : String) (kl : Nat) (e : Int)
    (h : resolve_cipher_type name mode kl = .error e) : e < 0 := by
  by_cases hn : name = "aes"
  · subst hn
    by_cases hx : mode = "xts"
    · subst hx
      rw [resolve_aes_xts] at h
      by_cases h32 : kl = 32 <;> by_cases h64 : kl = 64 <;>
        simp [h32, h64, EINVAL] at h <;> omega
    · by_cases hc : mode = "cbc"
      · subst hc
        rw [resolve_aes_cbc] at h
        by_cases h16 : kl = 16 <;> by_cases h24 : kl = 24 <;> by_cases h32 : kl = 32 <;>
          simp [h16, h24, h32, EINVAL] at h <;> omega
      · by_cases he : mode = "ecb"
        · subst he
          rw [resolve_aes_ecb] at h
          by_cases h16 : kl = 16 <;> by_cases h24 : kl = 24 <;> by_cases h32 : kl = 32 <;>
            simp [h16, h24, h32, EINVAL] at h <;> omega
        · rw [resolve_unknown_mode mode kl hx hc he] at h
          simp [ENOTSUP] at h
          omega
  · rw [resolve_not_aes name mode kl hn] at h
    simp [ENOTSUP] at h
    omega

/-- C8 (confirmed).  crypt_cipher_destroy is safe on every partially
constructed session: it releases exactly the non-NULL contexts and
performs no free on the NULL ones (EVP_CIPHER_CTX_free tolerating
NULL); and inside crypt_cipher_init every failure path after the
struct allocation releases exactly the contexts that were allocated —
in particular, when the decrypt-context allocation fails after the
encrypt context succeeded, init returns -EINVAL having released
exactly the one allocated encrypt context. -/
theorem cipher_destroy_partial_safe :
    (∀ e, crypt_cipher_destroy (some { hd_enc := some e, hd_dec := none }) = [e]) ∧
    (∀ d, crypt_cipher_destroy (some { hd_enc := none, hd_dec := some d }) = [d]) ∧
    crypt_cipher_destroy (some { hd_enc := none, hd_dec := none }) = [] ∧
    crypt_cipher_destroy none = [] ∧
    (∀ name mode key kl ctx0 t eN dN eI dI pE pD,
       resolve_cipher_type name mode kl = .ok t →
       (crypt_cipher_init name mode key kl ctx0 true eN dN eI dI pE pD).ret ≠ 0 →
       (crypt_cipher_init name mode key kl ctx0 true eN dN eI dI pE pD).released.length =
         (if eN then 1 else 0) + (if dN then 1 else 0)) ∧
    (∀ name mode key kl ctx0 t, resolve_cipher_type name mode kl = .ok t →
       crypt_cipher_init name mode key kl ctx0 true true false true true true true =
         { ret := -EINVAL, outParam := ctx0, released := [freshCipherCtx] }) := by
  refine ⟨fun e => rfl, fun d => rfl, rfl, rfl, ?_, ?_⟩
  · intro name mode key kl ctx0 t eN dN eI dI pE pD hRes
    unfold crypt_cipher_init
    rw [hRes]
    cases eN <;> cases dN <;> cases eI <;> cases dI <;> cases pE <;> cases pD <;>
      simp [crypt_cipher_destroy, evpCipherCtxFree, EVP_CIPHER_CTX_new]
  · intro name mode key kl ctx0 t hRes
    unfold crypt_cipher_init
    rw [hRes]
    rfl

/-- Witness for cipher_destroy_partial_safe: decrypt-context
allocation failure after a successful encrypt-context allocation. -/
theorem cipher_destroy_partial_safe_witness :
    crypt_cipher_init "aes" "xts" (List.replicate 64 1) 64 none true true false true true true true =
      { ret := -EINVAL, outParam := none, released := [freshCipherCtx] } :=
  cipher_destroy_partial_safe.2.2.2.2.2 "aes" "xts" (List.replicate 64 1) 64 none
    .aes_256_xts rfl

set_option maxHeartbeats 2000000 in
/-- C10 (confirmed).  For crypt_hash_init, crypt_hmac_init and
crypt_cipher_init, the caller out-parameter is untouched on every
error return (it keeps its prior value) and is assigned a freshly
built context exactly on the zero success return. -/
theorem init_outparam_on_error_unchanged (B : Backend)
    (c0h : Option crypt_hash) (c0m : Option crypt_hmac) (c0c : Option crypt_cipher)
    (name mode : String) (key hkey : List Nat) (kl : Nat)
    (b1 b2 b3 b4 b5 b6 b7 b8 b9 b10 b11 b12 : Bool) :
    ((crypt_hash_init B c0h name b1 b2 b3).1 ≠ 0 →
       (crypt_hash_init B c0h name b1 b2 b3).2 = c0h) ∧
    ((crypt_hash_init B c0h name b1 b2 b3).1 = 0 →
       ∃ h, (crypt_hash_init B c0h name b1 b2 b3).2 = some h) ∧
    ((crypt_hmac_init B c0m name hkey b4 b5).1 ≠ 0 →
       (crypt_hmac_init B c0m name hkey b4 b5).2 = c0m) ∧
    ((crypt_hmac_init B c0m name hkey b4 b5).1 = 0 →
       ∃ h, (crypt_hmac_init B c0m name hkey b4 b5).2 = some h) ∧
    ((crypt_cipher_init name mode key kl c0c b6 b7 b8 b9 b10 b11 b12).ret ≠ 0 →
       (crypt_cipher_init name mode key kl c0c b6 b7 b8 b9 b10 b11 b12).outParam = c0c) ∧
    ((crypt_cipher_init name mode key kl c0c b6 b7 b8 b9 b10 b11 b12).ret = 0 →
       ∃ h, (crypt_cipher_init name mode key kl c0c b6 b7 b8 b9 b10 b11 b12).outParam = some h) := by
  refine ⟨?_, ?_, ?_, ?_, ?_, ?_⟩
  · cases b1 <;> cases b2 <;> cases b3 <;> cases hB : B.getDigestByName name <;>
      simp [crypt_hash_init, hB, ENOMEM, EINVAL]
  · cases b1 <;> cases b2 <;> cases b3 <;> cases hB : B.getDigestByName name <;>
      simp [crypt_hash_init, hB, ENOMEM, EINVAL]
  · cases b4 <;> cases b5 <;> cases hB : B.getDigestByName name <;>
      simp [crypt_hmac_init, hB, ENOMEM, EINVAL]
  · cases b4 <;> cases b5 <;> cases hB : B.getDigestByName name <;>
      simp [crypt_hmac_init, hB, ENOMEM, EINVAL]
  · cases hR : resolve_cipher_type name mode kl with
    | error e => simp [crypt_cipher_init, hR]
    | ok t =>
      cases b6 <;> cases b7 <;> cases b8 <;> cases b9 <;> cases b10 <;> cases b11 <;> cases b12 <;>
        simp [crypt_cipher_init, hR, ENOMEM, EINVAL, EVP_CIPHER_CTX_new]
  · cases hR : resolve_cipher_type name mode kl with
    | error e =>
      intro h0
      have := resolve_error_neg name mode kl e hR
      have hz : (crypt_cipher_init name mode key kl c0c b6 b7 b8 b9 b10 b11 b12).ret = e := by
        unfold crypt_cipher_init; rw [hR]
      rw [hz] at h0
      omega
    | ok t =>
      cases b6 <;> cases b7 <;> cases b8 <;> cases b9 <;> cases b10 <;> cases b11 <;> cases b12 <;>
        simp [crypt_cipher_init, hR, ENOMEM, EINVAL, EVP_CIPHER_CTX_new]

/-- Witness for init_outparam_on_error_unchanged: an unresolvable
digest name leaves the hash out-parameter untouched. -/
theorem init_outparam_on_error_unchanged_witness :
    (crypt_hash_init testBackend none "nosuchdigest" true true true).2 = none :=
  (init_outparam_on_error_unchanged testBackend none none none "nosuchdigest" "xts"
      [] [] 32 true true true true true true true true true true true true).1 (by decide)
